import Mathlib

/-!
Shallow embedding of the core of the cloud-storage challenge service:
the multi-provider storage orchestrator (`StorageService`), the quota and
usage-accounting engine (`UsersService`), the upload/download/delete
coordinator (`FilesService`) and the admin-gated statistics endpoint
(`StatsService`).  Database tables (Prisma models `User`, `File`,
`UsageHistory`) are modelled as lists inside a `DB` record; each service
method becomes a pure function from the current database (and a `now`
timestamp standing for `new Date()`) to a result together with the
database it leaves behind.  Thrown NestJS exceptions become values of
`FilesError`.
-/

/-- A wall-clock instant with the fields JavaScript `Date` exposes through
`getFullYear`/`getMonth` (0-based)/`getDate`/`getHours`/`getMinutes`/
`getSeconds`/`getMilliseconds`.  JS compares `Date`s by their epoch value;
for component-wise valid dates that order coincides with the lexicographic
order on these fields, which is what `DateTime.leb` implements. -/
structure DateTime where
  year : Int
  month : Nat
  day : Nat
  hour : Nat
  minute : Nat
  second : Nat
  ms : Nat
deriving DecidableEq

/-- Lexicographic `<=` on date components; for valid dates this is exactly
the JS `Date` comparison used in `nextQuotaResetDate <= now`. -/
def DateTime.leb (a b : DateTime) : Bool :=
  if a.year < b.year then true
  else if b.year < a.year then false
  else if a.month < b.month then true
  else if b.month < a.month then false
  else if a.day < b.day then true
  else if b.day < a.day then false
  else if a.hour < b.hour then true
  else if b.hour < a.hour then false
  else if a.minute < b.minute then true
  else if b.minute < a.minute then false
  else if a.second < b.second then true
  else if b.second < a.second then false
  else decide (a.ms ≤ b.ms)

/-- A calendar day (what `today.setHours(0,0,0,0)` normalises a `Date`
to); `UsageHistory.date` rows only ever hold midnight-normalised dates,
so the source range query `gte today && lt today + 24h` is day equality. -/
structure Day where
  year : Int
  month : Nat
  day : Nat
deriving DecidableEq

/-- Drop the time-of-day, keeping the calendar day (`setHours(0,0,0,0)`). -/
def DateTime.toDay (d : DateTime) : Day :=
  { year := d.year, month := d.month, day := d.day }

/-- Gregorian leap-year rule, as JS `Date` normalisation applies it. -/
def isLeapYear (y : Int) : Bool :=
  (y % 4 == 0 && y % 100 != 0) || y % 400 == 0

/-- `UsersService.daysInMonth`: the source computes
`new Date(year, month + 1, 0).getDate()` (day 0 of the next month is the
last day of the wanted month); this is the Gregorian month-length table,
spelled out.  `month` is 0-based; the function is only applied to months
in `0..11`. -/
def UsersService.daysInMonth (year : Int) (month : Nat) : Nat :=
  match month with
  | 0 => 31
  | 1 => if isLeapYear year then 29 else 28
  | 2 => 31
  | 3 => 30
  | 4 => 31
  | 5 => 30
  | 6 => 31
  | 7 => 31
  | 8 => 30
  | 9 => 31
  | 10 => 30
  | 11 => 31
  | _ => 31

/-- `UsersService.addOneMonth`: advance the month by one, roll the year on
overflow, clamp the day to the length of the new month, and keep the
time-of-day fields unchanged. -/
def UsersService.addOneMonth (orig : DateTime) : DateTime :=
  let newMonthIndex := orig.month + 1
  let newYear : Int := orig.year + ((newMonthIndex / 12 : Nat) : Int)
  let newMonth : Nat := newMonthIndex % 12
  let newDay : Nat := min orig.day (UsersService.daysInMonth newYear newMonth)
  { year := newYear, month := newMonth, day := newDay,
    hour := orig.hour, minute := orig.minute, second := orig.second, ms := orig.ms }

/-- Months since year zero; `addOneMonth` increments this by exactly one,
which yields the termination measure for the reset-date loop. -/
def monthIndex (d : DateTime) : Int :=
  12 * d.year + (d.month : Int)

theorem addOneMonth_monthIndex (d : DateTime) :
    monthIndex (UsersService.addOneMonth d) = monthIndex d + 1 := by
  have h : monthIndex (UsersService.addOneMonth d) =
      12 * (d.year + (((d.month + 1) / 12 : Nat) : Int)) + (((d.month + 1) % 12 : Nat) : Int) := rfl
  rw [h]
  simp only [monthIndex]
  omega

theorem leb_monthIndex {a b : DateTime} (h : DateTime.leb a b = true)
    (hm : a.month < 12) : monthIndex a ≤ monthIndex b := by
  simp only [DateTime.leb] at h
  simp only [monthIndex]
  rcases lt_trichotomy a.year b.year with h1 | h1 | h1
  · omega
  · rw [if_neg (by omega), if_neg (by omega)] at h
    rcases lt_trichotomy a.month b.month with h2 | h2 | h2
    · omega
    · omega
    · rw [if_neg (by omega), if_pos (by omega)] at h
      cases h
  · rw [if_neg (by omega), if_pos (by omega)] at h
    cases h

theorem addOneMonth_month_lt (d : DateTime) :
    (UsersService.addOneMonth d).month < 12 := by
  show (d.month + 1) % 12 < 12
  omega

/-- `addOneMonth` iterated; the loop in `checkAndResetQuotaIfNeeded`
produces some iterate of `addOneMonth`. -/
def addMonths : Nat → DateTime → DateTime
  | 0, d => d
  | k + 1, d => addMonths k (UsersService.addOneMonth d)

/-- Termination measure for the reset-date loop: how many whole months
separate `d` from `now`, plus a one-step penalty while the month field is
not yet normalised below 12. -/
def resetMeasure (now d : DateTime) : Nat :=
  ((monthIndex now + 1) - monthIndex d).toNat + (if 12 ≤ d.month then 1 else 0)

theorem resetMeasure_decreases (now d : DateTime) (h : DateTime.leb d now = true) :
    resetMeasure now (UsersService.addOneMonth d) < resetMeasure now d := by
  have h2 := addOneMonth_monthIndex d
  have h3 := addOneMonth_month_lt d
  simp only [resetMeasure]
  rw [if_neg (by omega : ¬ 12 ≤ (UsersService.addOneMonth d).month)]
  by_cases hm : d.month < 12
  · have h1 := leb_monthIndex h hm
    rw [if_neg (by omega : ¬ 12 ≤ d.month)]
    omega
  · rw [if_pos (by omega : 12 ≤ d.month)]
    omega

/-- The `while (newResetDate <= now) newResetDate = addOneMonth(newResetDate)`
loop of `UsersService.checkAndResetQuotaIfNeeded`. -/
def advanceReset (now : DateTime) (d : DateTime) : DateTime :=
  if h : DateTime.leb d now = true then
    advanceReset now (UsersService.addOneMonth d)
  else d
termination_by resetMeasure now d
decreasing_by
  exact resetMeasure_decreases now d h

theorem advanceReset_spec (now : DateTime) (d : DateTime) :
    ∃ k : Nat, advanceReset now d = addMonths k d
      ∧ DateTime.leb (addMonths k d) now = false
      ∧ (∀ j, j < k → DateTime.leb (addMonths j d) now = true)
      ∧ (DateTime.leb d now = true → 1 ≤ k) := by
  suffices h : ∀ n d, resetMeasure now d = n →
      ∃ k : Nat, advanceReset now d = addMonths k d
        ∧ DateTime.leb (addMonths k d) now = false
        ∧ (∀ j, j < k → DateTime.leb (addMonths j d) now = true)
        ∧ (DateTime.leb d now = true → 1 ≤ k) from h _ d rfl
  intro n
  induction n using Nat.strong_induction_on with
  | _ n ih =>
    intro d hm
    by_cases h : DateTime.leb d now = true
    · have hlt : resetMeasure now (UsersService.addOneMonth d) < n := by
        have := resetMeasure_decreases now d h
        omega
      obtain ⟨k, hk1, hk2, hk3, _⟩ := ih _ hlt (UsersService.addOneMonth d) rfl
      refine ⟨k + 1, ?_, ?_, ?_, fun _ => by omega⟩
      · rw [advanceReset]
        simp only [h, dite_true]
        exact hk1
      · exact hk2
      · intro j hj
        cases j with
        | zero => exact h
        | succ j' => exact hk3 j' (by omega)
    · refine ⟨0, ?_, ?_, ?_, ?_⟩
      · rw [advanceReset]
        simp only [h, dite_false]
        rfl
      · show DateTime.leb d now = false
        simpa using h
      · intro j hj; omega
      · intro hc; exact absurd hc h

theorem advanceReset_exit (now d : DateTime) :
    DateTime.leb (advanceReset now d) now = false := by
  obtain ⟨k, hk1, hk2, _, _⟩ := advanceReset_spec now d
  rw [hk1]; exact hk2

/-! ## Error taxonomy

NestJS exceptions thrown by the services, carried with their messages so
that identity of errors (e.g. the deliberate NotFound-for-non-owner) is
expressible. -/

inductive FilesError where
  | badRequest (msg : String)
  | notFound (msg : String)
  | serviceUnavailable (msg : String)
  | forbidden (msg : String)
  | internalError (msg : String)
deriving DecidableEq

/-! ## Storage providers and the orchestrator (`storage.service.ts`)

A `StorageProvider` captures the observable behaviour of one backend
adapter for the duration of one service call: the result of its
`isAvailable()` probe, whether its backend `send`/`save` succeeds for an
upload, what `downloadFile` yields per key (`none` models a thrown
error), what boolean `deleteFile` returns (both adapters catch transport
failures and return `false` rather than throwing), and the public URL it
reports for a key. -/

structure FileUploadResult where
  provider : String
  location : String
  key : String
  size : Nat
deriving DecidableEq

structure FileDownloadResult where
  mimetype : String
  size : Int
  fileName : String
deriving DecidableEq

structure StorageProvider where
  id : String
  available : Bool
  uploadOk : Bool
  download : String → Option FileDownloadResult
  deleteOk : String → Bool
  locationOf : String → String

/-- Adapter-level `uploadFile` (`aws-s3.provider.ts` / the GCP analogue):
on a successful backend send it returns a result tagged with the
adapter's own identifier and `size = file.length`; a failed send throws,
modelled as `none`. -/
def StorageProvider.uploadFile (p : StorageProvider) (file : List Nat)
    (key : String) (_mimetype : String) : Option FileUploadResult :=
  if p.uploadOk then
    some { provider := p.id, location := p.locationOf key, key := key, size := file.length }
  else none

/-- The `StorageService` constructor wires the two concrete adapters and
fixes `providers = [awsProvider, gcpProvider]` as the failover order. -/
structure StorageServiceState where
  awsProvider : StorageProvider
  gcpProvider : StorageProvider

def StorageServiceState.providers (s : StorageServiceState) : List StorageProvider :=
  [s.awsProvider, s.gcpProvider]

/-- JS `name.toLowerCase()` for the ASCII provider tags, spelled as a
character-wise map (Lean core `String.toLower` computes the same string
but its implementation does not reduce inside the kernel). -/
def lowerName (s : String) : String :=
  String.mk (s.data.map Char.toLower)

/-- `StorageService.getProviderByName`: case-insensitive dispatch on the
recorded provider tag (`switch (name.toLowerCase())`). -/
def StorageServiceState.getProviderByName (s : StorageServiceState)
    (name : String) : Option StorageProvider :=
  if lowerName name = "aws" then some s.awsProvider
  else if lowerName name = "gcp" then some s.gcpProvider
  else none

/-- `StorageService.uploadFile`: iterate the providers in order; probe
`isAvailable()`; when available attempt the adapter upload and return its
result immediately on success; an unavailable probe or a caught upload
error moves on to the next provider; an exhausted list throws
`ServiceUnavailableException`. -/
def StorageService.uploadFile : List StorageProvider → List Nat → String → String →
    Except FilesError FileUploadResult
  | [], _, _, _ => .error (.serviceUnavailable "All storage providers are unavailable")
  | p :: rest, file, key, mimetype =>
    if p.available then
      match p.uploadFile file key mimetype with
      | some r => .ok r
      | none => StorageService.uploadFile rest file key mimetype
    else StorageService.uploadFile rest file key mimetype

/-- The providers whose adapter `uploadFile` the orchestrator loop
actually invokes, in order: availability gates the call, and the loop
stops at the first successful upload. -/
def StorageService.uploadCalls : List StorageProvider → List StorageProvider
  | [] => []
  | p :: rest =>
    if p.available then
      if p.uploadOk then [p] else p :: StorageService.uploadCalls rest
    else StorageService.uploadCalls rest

/-- `StorageService.downloadFile` (live version, pinned by the repository
e2e test `storage-fallback.e2e-spec.ts`): resolve the adapter recorded at
upload time; if it is configured and reports available, return its
download result; on a missing adapter, an unavailable probe, or a caught
download error, throw `ServiceUnavailableException` promising e-mail
delivery once service is restored. -/
def emailUnavailableMsg : String :=
  "Storage provider is currently unavailable. The file will be sent to your registered email once service is restored."

def StorageService.downloadFile (s : StorageServiceState) (key : String)
    (provider : String) : Except FilesError FileDownloadResult :=
  match s.getProviderByName provider with
  | some sel =>
    if sel.available then
      match sel.download key with
      | some r => .ok r
      | none => .error (.serviceUnavailable emailUnavailableMsg)
    else .error (.serviceUnavailable emailUnavailableMsg)
  | none => .error (.serviceUnavailable emailUnavailableMsg)

/-- `StorageService.deleteFile`: resolve the adapter by recorded id (no
failover); an unknown id throws a plain `Error`; otherwise the adapter's
boolean result is returned as-is. -/
def StorageService.deleteFile (s : StorageServiceState) (key : String)
    (provider : String) : Except FilesError Bool :=
  match s.getProviderByName provider with
  | some p => .ok (p.deleteOk key)
  | none => .error (.internalError ("Provider " ++ provider ++ " not found"))

/-! ## Database model (Prisma tables) -/

/-- Row of the `User` table (the fields the core reads). -/
structure User where
  id : String
  username : String
  isAdmin : Bool
  monthlyUsage : Int
  nextQuotaResetDate : Option DateTime
  maxStorageCapacity : Int
deriving DecidableEq

/-- Row of the `File` table. -/
structure FileRecord where
  id : String
  name : String
  originalName : String
  size : Int
  mimeType : String
  cloudProvider : String
  cloudPath : String
  userId : String
  uploadedAt : DateTime
deriving DecidableEq

/-- Row of the `UsageHistory` table; `date` is always midnight-normalised
at creation, so it is kept as a calendar `Day`. -/
structure UsageEntry where
  userId : String
  date : Day
  usageBytes : Int
deriving DecidableEq

structure DB where
  users : List User
  files : List FileRecord
  usage : List UsageEntry
deriving DecidableEq

/-- `prisma.user.update where id`: rewrite the matching row in place. -/
def DB.updateUser (db : DB) (userId : String) (fn : User → User) : DB :=
  { db with users := db.users.map (fun u => if u.id = userId then fn u else u) }

/-- `prisma.usageHistory.update` keyed on the row `findFirst` returned:
bump the first matching row's byte counter in place. -/
def bumpFirstUsage : List UsageEntry → (UsageEntry → Bool) → Int → List UsageEntry
  | [], _, _ => []
  | e :: rest, p, delta =>
    if p e then { e with usageBytes := e.usageBytes + delta } :: rest
    else e :: bumpFirstUsage rest p delta

/-! ## UsersService (quota ledger) -/

/-- The due test `!nextResetDate || nextResetDate <= now` guarding the
quota reset. -/
def quotaDue (now : DateTime) : Option DateTime → Bool
  | none => true
  | some nrd => DateTime.leb nrd now

/-- `UsersService.checkAndResetQuotaIfNeeded`: when the stored reset
instant is absent or not after `now`, zero the monthly usage and advance
the reset instant (starting from the old instant, or from `now` when
absent) by whole months until it lies strictly in the future; otherwise
leave the database untouched. -/
def UsersService.checkAndResetQuotaIfNeeded (now : DateTime) (db : DB)
    (userId : String) (nextResetDate : Option DateTime) : DB :=
  if quotaDue now nextResetDate then
    db.updateUser userId (fun u =>
      { u with monthlyUsage := 0,
               nextQuotaResetDate := some (advanceReset now (nextResetDate.getD now)) })
  else db

/-- `UsersService.checkUserStorageQuota`: look the user up (absent throws
`BadRequestException`), run the lazy rollover, re-read the possibly reset
usage, and answer whether `usage + fileSize <= maxStorageCapacity`.
Returns the database the rollover left behind together with the verdict. -/
def UsersService.checkUserStorageQuota (now : DateTime) (db : DB)
    (userId : String) (fileSize : Int) : Except FilesError (DB × Bool) :=
  match db.users.find? (fun u => decide (u.id = userId)) with
  | none => .error (.badRequest "User not found")
  | some user =>
    let db1 := UsersService.checkAndResetQuotaIfNeeded now db userId user.nextQuotaResetDate
    match db1.users.find? (fun u => decide (u.id = userId)) with
    | none => .error (.badRequest "User not found after quota reset check")
    | some freshUser =>
      .ok (db1, decide (freshUser.monthlyUsage + fileSize ≤ user.maxStorageCapacity))

/-- `UsersService.updateUserStorageUsage`: after the lazy rollover,
increment the user's monthly usage by `fileSize` (negative for deletes),
then upsert today's `UsageHistory` row by the same delta: the first
existing row for (user, today) is incremented, otherwise a fresh row
holding exactly `fileSize` is created. -/
def UsersService.updateUserStorageUsage (now : DateTime) (db : DB)
    (userId : String) (fileSize : Int) : Except FilesError DB :=
  match db.users.find? (fun u => decide (u.id = userId)) with
  | none => .error (.badRequest "User not found")
  | some user =>
    let db1 := UsersService.checkAndResetQuotaIfNeeded now db userId user.nextQuotaResetDate
    let db2 := db1.updateUser userId (fun u => { u with monthlyUsage := u.monthlyUsage + fileSize })
    let today := now.toDay
    match db2.usage.find? (fun e => decide (e.userId = userId) && decide (e.date = today)) with
    | some _ =>
      let bumped := bumpFirstUsage db2.usage
        (fun e => decide (e.userId = userId) && decide (e.date = today)) fileSize
      .ok { db2 with usage := bumped }
    | none =>
      .ok { db2 with usage := db2.usage ++ [{ userId := userId, date := today, usageBytes := fileSize }] }

/-- `UsersService.isAdmin`: absent user throws `BadRequestException`. -/
def UsersService.isAdmin (db : DB) (userId : String) : Except FilesError Bool :=
  match db.users.find? (fun u => decide (u.id = userId)) with
  | none => .error (.badRequest "User not found")
  | some user => .ok user.isAdmin

/-- One row of the daily statistics snapshot (the `usageMB` field of the
response is `usageBytes / 2^20` rendered as a float, a display-only
derived value omitted here). -/
structure StatRow where
  username : String
  usageBytes : Int
deriving DecidableEq

/-- Insertion into a list kept in descending `usageBytes` order
(`orderBy usageBytes desc`). -/
def insertByBytesDesc (e : StatRow) : List StatRow → List StatRow
  | [] => [e]
  | x :: xs =>
    if x.usageBytes < e.usageBytes then e :: x :: xs
    else x :: insertByBytesDesc e xs

def sortByBytesDesc : List StatRow → List StatRow
  | [] => []
  | x :: xs => insertByBytesDesc x (sortByBytesDesc xs)

/-- `UsersService.getDailyUsageStats`: rows of today with strictly
positive bytes, joined with the owning username, descending by bytes. -/
def UsersService.getDailyUsageStats (today : Day) (db : DB) : List StatRow :=
  sortByBytesDesc ((db.usage.filter
      (fun e => decide (e.date = today) && decide (0 < e.usageBytes))).map
    (fun e => { username := ((db.users.find? (fun u => decide (u.id = e.userId))).map
                  User.username).getD "",
                usageBytes := e.usageBytes }))

/-- `StatsService.getDailyUsageStats`: gate on `isAdmin` (absent caller
throws `BadRequestException`, a non-admin caller `ForbiddenException`),
then hand back the daily snapshot. -/
def StatsService.getDailyUsageStats (today : Day) (db : DB)
    (userId : String) : Except FilesError (List StatRow) :=
  match UsersService.isAdmin db userId with
  | .error e => .error e
  | .ok isAdm =>
    if isAdm then .ok (UsersService.getDailyUsageStats today db)
    else .error (.forbidden "Admin access required")

/-! ## FilesService (upload/download/delete coordinator, `files.service.ts`)

Each method returns the result (or the thrown exception) paired with the
database state it leaves behind: Prisma writes commit individually, so a
throw after a write keeps the earlier writes. The uuid-based unique file
name and the Prisma-generated record id are nondeterministic inputs,
passed as parameters. -/

structure FileResponse where
  id : String
  name : String
  originalName : String
  size : Int
  uploadedAt : DateTime
  url : String
deriving DecidableEq

structure DownloadResponse where
  mimetype : String
  size : Int
  filename : String
deriving DecidableEq

/-- `FilesService.uploadFile`: quota check (rejecting with
`BadRequestException` when it fails), then the orchestrator upload to
`uploads/{userId}/{uniqueFilename}`, then the `File` row insert, then the
usage commit. -/
def FilesService.uploadFile (svc : StorageServiceState) (now : DateTime)
    (newFileId uniqueFilename : String) (db : DB) (fileBytes : List Nat)
    (originalName mimetype userId : String) :
    Except FilesError FileResponse × DB :=
  match UsersService.checkUserStorageQuota now db userId (fileBytes.length : Int) with
  | .error e => (.error e, db)
  | .ok (db1, hasQuota) =>
    if hasQuota then
      let cloudPath := "uploads/" ++ userId ++ "/" ++ uniqueFilename
      match StorageService.uploadFile svc.providers fileBytes cloudPath mimetype with
      | .error e => (.error e, db1)
      | .ok uploadResult =>
        let fr : FileRecord :=
          { id := newFileId, name := uniqueFilename, originalName := originalName,
            size := (fileBytes.length : Int), mimeType := mimetype,
            cloudProvider := uploadResult.provider, cloudPath := uploadResult.key,
            userId := userId, uploadedAt := now }
        let db2 := { db1 with files := db1.files ++ [fr] }
        match UsersService.updateUserStorageUsage now db2 userId (fileBytes.length : Int) with
        | .error e => (.error e, db2)
        | .ok db3 =>
          (.ok { id := fr.id, name := fr.name, originalName := fr.originalName,
                 size := fr.size, uploadedAt := fr.uploadedAt,
                 url := uploadResult.location }, db3)
    else (.error (.badRequest "Storage quota exceeded (5GB limit)"), db1)

/-- `FilesService.getFile` (metadata): a record that is absent or owned by
someone else throws the same `NotFoundException`. -/
def FilesService.getFile (apiUrl : String) (db : DB) (fileId userId : String) :
    Except FilesError FileResponse :=
  match db.files.find? (fun f => decide (f.id = fileId)) with
  | none => .error (.notFound "File not found")
  | some file =>
    if file.userId ≠ userId then .error (.notFound "File not found")
    else .ok { id := file.id, name := file.name, originalName := file.originalName,
               size := file.size, uploadedAt := file.uploadedAt,
               url := apiUrl ++ "/files/download/" ++ file.id }

/-- `FilesService.getFileForDownload`: same ownership gate, then the
orchestrator download with the recorded provider tag. -/
def FilesService.getFileForDownload (svc : StorageServiceState) (db : DB)
    (fileId userId : String) : Except FilesError DownloadResponse :=
  match db.files.find? (fun f => decide (f.id = fileId)) with
  | none => .error (.notFound "File not found")
  | some file =>
    if file.userId ≠ userId then .error (.notFound "File not found")
    else
      match StorageService.downloadFile svc file.cloudPath file.cloudProvider with
      | .error e => .error e
      | .ok d => .ok { mimetype := d.mimetype, size := d.size, filename := file.originalName }

/-- `FilesService.deleteFile`: ownership gate as above, then the storage
delete (whose boolean result is discarded), then removal of the `File`
row, then the negative usage commit; returns `true`. -/
def FilesService.deleteFile (svc : StorageServiceState) (now : DateTime)
    (db : DB) (fileId userId : String) : Except FilesError Bool × DB :=
  match db.files.find? (fun f => decide (f.id = fileId)) with
  | none => (.error (.notFound "File not found"), db)
  | some file =>
    if file.userId ≠ userId then (.error (.notFound "File not found"), db)
    else
      match StorageService.deleteFile svc file.cloudPath file.cloudProvider with
      | .error e => (.error e, db)
      | .ok _deleted =>
        let db1 := { db with files := db.files.filter (fun g => !decide (g.id = fileId)) }
        match UsersService.updateUserStorageUsage now db1 userId (-file.size) with
        | .error e => (.error e, db1)
        | .ok db2 => (.ok true, db2)

/-! ## Helper lemmas -/

theorem leb_refl (d : DateTime) : DateTime.leb d d = true := by
  simp [DateTime.leb]

theorem checkAndReset_files (now : DateTime) (db : DB) (userId : String)
    (nrd : Option DateTime) :
    (UsersService.checkAndResetQuotaIfNeeded now db userId nrd).files = db.files := by
  unfold UsersService.checkAndResetQuotaIfNeeded
  split <;> rfl

theorem checkAndReset_usage (now : DateTime) (db : DB) (userId : String)
    (nrd : Option DateTime) :
    (UsersService.checkAndResetQuotaIfNeeded now db userId nrd).usage = db.usage := by
  unfold UsersService.checkAndResetQuotaIfNeeded
  split <;> rfl

theorem find?_map_update (l : List User) (userId : String) (fn : User → User)
    (hid : ∀ x, (fn x).id = x.id) :
    (l.map (fun u => if u.id = userId then fn u else u)).find?
        (fun x => decide (x.id = userId))
      = (l.find? (fun x => decide (x.id = userId))).map fn := by
  induction l with
  | nil => rfl
  | cons x xs ih =>
    by_cases hx : x.id = userId
    · simp [List.find?_cons, hx, hid x]
    · simp [List.find?_cons, hx, ih]

/-! ## Claims -/

/-- C6: adding one calendar month increments the month field, rolls the
year when the month overflows December, clamps the day-of-month to the
last valid day of the resulting month, and preserves the time-of-day; in
particular Jan 31 2025 yields Feb 28 2025 and Jan 31 2024 (leap year)
yields Feb 29 2024, each at the unchanged time-of-day. -/
theorem addOneMonth_calendar (d : DateTime) :
    ((UsersService.addOneMonth d).hour = d.hour
      ∧ (UsersService.addOneMonth d).minute = d.minute
      ∧ (UsersService.addOneMonth d).second = d.second
      ∧ (UsersService.addOneMonth d).ms = d.ms)
    ∧ (d.month < 11 → (UsersService.addOneMonth d).month = d.month + 1
        ∧ (UsersService.addOneMonth d).year = d.year)
    ∧ (d.month = 11 → (UsersService.addOneMonth d).month = 0
        ∧ (UsersService.addOneMonth d).year = d.year + 1)
    ∧ (d.day ≤ UsersService.daysInMonth (UsersService.addOneMonth d).year
          (UsersService.addOneMonth d).month
        → (UsersService.addOneMonth d).day = d.day)
    ∧ (UsersService.daysInMonth (UsersService.addOneMonth d).year
          (UsersService.addOneMonth d).month < d.day
        → (UsersService.addOneMonth d).day
            = UsersService.daysInMonth (UsersService.addOneMonth d).year
                (UsersService.addOneMonth d).month)
    ∧ UsersService.addOneMonth ⟨2025, 0, 31, 23, 59, 58, 999⟩
        = ⟨2025, 1, 28, 23, 59, 58, 999⟩
    ∧ UsersService.addOneMonth ⟨2024, 0, 31, 23, 59, 58, 999⟩
        = ⟨2024, 1, 29, 23, 59, 58, 999⟩ := by
  refine ⟨⟨rfl, rfl, rfl, rfl⟩, ?_, ?_, ?_, ?_, ?_, ?_⟩
  · intro h
    constructor
    · show (d.month + 1) % 12 = d.month + 1
      omega
    · show d.year + (((d.month + 1) / 12 : Nat) : Int) = d.year
      have : (d.month + 1) / 12 = 0 := by omega
      rw [this]
      simp
  · intro h
    constructor
    · show (d.month + 1) % 12 = 0
      omega
    · show d.year + (((d.month + 1) / 12 : Nat) : Int) = d.year + 1
      have : (d.month + 1) / 12 = 1 := by omega
      rw [this]
      simp
  · intro h
    exact Nat.min_eq_left h
  · intro h
    exact Nat.min_eq_right (Nat.le_of_lt h)
  · decide
  · decide

/-- C6 witness: December 2025 rolls the year; both concrete spec
examples instantiated. -/
theorem addOneMonth_calendar_witness :
    ((UsersService.addOneMonth ⟨2025, 11, 15, 1, 2, 3, 4⟩).month = 0
      ∧ (UsersService.addOneMonth ⟨2025, 11, 15, 1, 2, 3, 4⟩).year = 2025 + 1)
    ∧ ((UsersService.addOneMonth ⟨2025, 0, 31, 1, 2, 3, 4⟩).day = 28
      ∧ (UsersService.addOneMonth ⟨2024, 0, 31, 1, 2, 3, 4⟩).day = 29) :=
  ⟨(addOneMonth_calendar ⟨2025, 11, 15, 1, 2, 3, 4⟩).2.2.1 rfl,
   (addOneMonth_calendar ⟨2025, 0, 31, 1, 2, 3, 4⟩).2.2.2.2.1 (by decide),
   (addOneMonth_calendar ⟨2024, 0, 31, 1, 2, 3, 4⟩).2.2.2.2.1 (by decide)⟩

/-- C7: quota rollover is idempotent — once a reset-check has run (and,
when due, pushed the stored reset instant strictly past `now`), running
the reset-check again with the reset instant it just stored changes
nothing. -/
theorem rollover_idempotent (now : DateTime) (db : DB) (userId : String) (u : User)
    (hu : db.users.find? (fun x => decide (x.id = userId)) = some u) :
    ∀ u1, (UsersService.checkAndResetQuotaIfNeeded now db userId
        u.nextQuotaResetDate).users.find? (fun x => decide (x.id = userId)) = some u1 →
      UsersService.checkAndResetQuotaIfNeeded now
          (UsersService.checkAndResetQuotaIfNeeded now db userId u.nextQuotaResetDate)
          userId u1.nextQuotaResetDate
        = UsersService.checkAndResetQuotaIfNeeded now db userId u.nextQuotaResetDate := by
  intro u1 hu1
  by_cases hdue : quotaDue now u.nextQuotaResetDate = true
  · have hstate : UsersService.checkAndResetQuotaIfNeeded now db userId u.nextQuotaResetDate
        = db.updateUser userId (fun x =>
            { x with monthlyUsage := 0,
                     nextQuotaResetDate := some (advanceReset now (u.nextQuotaResetDate.getD now)) }) := by
      unfold UsersService.checkAndResetQuotaIfNeeded
      rw [if_pos hdue]
    have hfind : (db.updateUser userId (fun x =>
        { x with monthlyUsage := 0,
                 nextQuotaResetDate := some (advanceReset now (u.nextQuotaResetDate.getD now)) })).users.find?
          (fun x => decide (x.id = userId))
        = some { u with monthlyUsage := 0,
                        nextQuotaResetDate := some (advanceReset now (u.nextQuotaResetDate.getD now)) } := by
      show (db.users.map (fun x => if x.id = userId then
            { x with monthlyUsage := 0,
                     nextQuotaResetDate := some (advanceReset now (u.nextQuotaResetDate.getD now)) }
          else x)).find? (fun x => decide (x.id = userId)) = _
      rw [find?_map_update db.users userId (fun x =>
            { x with monthlyUsage := 0,
                     nextQuotaResetDate := some (advanceReset now (u.nextQuotaResetDate.getD now)) })
          (fun x => rfl), hu]
      rfl
    rw [hstate] at hu1 ⊢
    have h2 := hfind.symm.trans hu1
    have hu1eq : u1 = { u with monthlyUsage := 0, nextQuotaResetDate := some (advanceReset now (u.nextQuotaResetDate.getD now)) } := by
      injection h2 with h3
      exact h3.symm
    subst hu1eq
    have hfut : quotaDue now (some (advanceReset now (u.nextQuotaResetDate.getD now))) = false := by
      show DateTime.leb (advanceReset now (u.nextQuotaResetDate.getD now)) now = false
      exact advanceReset_exit now (u.nextQuotaResetDate.getD now)
    unfold UsersService.checkAndResetQuotaIfNeeded
    rw [if_neg (by simp [hfut])]
  · have hstate : UsersService.checkAndResetQuotaIfNeeded now db userId u.nextQuotaResetDate
        = db := by
      unfold UsersService.checkAndResetQuotaIfNeeded
      rw [if_neg hdue]
    rw [hstate] at hu1 ⊢
    have hu1eq : u1 = u := by
      rw [hu] at hu1
      injection hu1 with h3
      exact h3.symm
    subst hu1eq
    exact hstate

/-- C7 witness: a user whose reset instant is still in the future is left
unchanged by the first check, and the second check is a no-op as well. -/
theorem rollover_idempotent_witness :
    UsersService.checkAndResetQuotaIfNeeded ⟨2025, 5, 15, 12, 0, 0, 0⟩
        (UsersService.checkAndResetQuotaIfNeeded ⟨2025, 5, 15, 12, 0, 0, 0⟩
          { users := [{ id := "u1", username := "alice", isAdmin := false,
                        monthlyUsage := 600,
                        nextQuotaResetDate := some ⟨2025, 6, 1, 0, 0, 0, 0⟩,
                        maxStorageCapacity := 1000 }], files := [], usage := [] }
          "u1" (some ⟨2025, 6, 1, 0, 0, 0, 0⟩))
        "u1"
        (some ⟨2025, 6, 1, 0, 0, 0, 0⟩)
      = UsersService.checkAndResetQuotaIfNeeded ⟨2025, 5, 15, 12, 0, 0, 0⟩
          { users := [{ id := "u1", username := "alice", isAdmin := false,
                        monthlyUsage := 600,
                        nextQuotaResetDate := some ⟨2025, 6, 1, 0, 0, 0, 0⟩,
                        maxStorageCapacity := 1000 }], files := [], usage := [] }
          "u1" (some ⟨2025, 6, 1, 0, 0, 0, 0⟩) :=
  rollover_idempotent ⟨2025, 5, 15, 12, 0, 0, 0⟩
    { users := [{ id := "u1", username := "alice", isAdmin := false,
                  monthlyUsage := 600,
                  nextQuotaResetDate := some ⟨2025, 6, 1, 0, 0, 0, 0⟩,
                  maxStorageCapacity := 1000 }], files := [], usage := [] }
    "u1"
    { id := "u1", username := "alice", isAdmin := false, monthlyUsage := 600,
      nextQuotaResetDate := some ⟨2025, 6, 1, 0, 0, 0, 0⟩, maxStorageCapacity := 1000 }
    (by decide)
    { id := "u1", username := "alice", isAdmin := false, monthlyUsage := 600,
      nextQuotaResetDate := some ⟨2025, 6, 1, 0, 0, 0, 0⟩, maxStorageCapacity := 1000 }
    (by decide)

/-- C5: when the stored next reset instant is absent or not after `now`,
the reset-check zeroes the accumulated usage and stores, as the new reset
instant, the first iterate of `addOneMonth` (starting from the old
instant, or from `now` when absent) that lies strictly in the future;
all earlier iterates are not in the future, at least one month is added,
and the stored instant is strictly in the future afterwards. -/
theorem rollover_due_resets (now : DateTime) (db : DB) (userId : String) (u : User)
    (hu : db.users.find? (fun x => decide (x.id = userId)) = some u)
    (hdue : quotaDue now u.nextQuotaResetDate = true) :
    ∃ u1, (UsersService.checkAndResetQuotaIfNeeded now db userId
          u.nextQuotaResetDate).users.find? (fun x => decide (x.id = userId)) = some u1
      ∧ u1.monthlyUsage = 0
      ∧ ∃ k, 1 ≤ k
          ∧ u1.nextQuotaResetDate = some (addMonths k (u.nextQuotaResetDate.getD now))
          ∧ (∀ j, j < k →
              DateTime.leb (addMonths j (u.nextQuotaResetDate.getD now)) now = true)
          ∧ DateTime.leb (addMonths k (u.nextQuotaResetDate.getD now)) now = false := by
  have hstate : UsersService.checkAndResetQuotaIfNeeded now db userId u.nextQuotaResetDate
      = db.updateUser userId (fun x =>
          { x with monthlyUsage := 0,
                   nextQuotaResetDate := some (advanceReset now (u.nextQuotaResetDate.getD now)) }) := by
    unfold UsersService.checkAndResetQuotaIfNeeded
    rw [if_pos hdue]
  have hfind : (db.updateUser userId (fun x =>
      { x with monthlyUsage := 0,
               nextQuotaResetDate := some (advanceReset now (u.nextQuotaResetDate.getD now)) })).users.find?
        (fun x => decide (x.id = userId))
      = some { u with monthlyUsage := 0,
                      nextQuotaResetDate := some (advanceReset now (u.nextQuotaResetDate.getD now)) } := by
    show (db.users.map (fun x => if x.id = userId then
          { x with monthlyUsage := 0,
                   nextQuotaResetDate := some (advanceReset now (u.nextQuotaResetDate.getD now)) }
        else x)).find? (fun x => decide (x.id = userId)) = _
    rw [find?_map_update db.users userId (fun x =>
          { x with monthlyUsage := 0,
                   nextQuotaResetDate := some (advanceReset now (u.nextQuotaResetDate.getD now)) })
        (fun x => rfl), hu]
    rfl
  rw [hstate]
  obtain ⟨k, hk1, hk2, hk3, hk4⟩ := advanceReset_spec now (u.nextQuotaResetDate.getD now)
  refine ⟨_, hfind, rfl, k, ?_, ?_, hk3, hk2⟩
  · apply hk4
    cases hnrd : u.nextQuotaResetDate with
    | none => exact leb_refl now
    | some nrd =>
      show DateTime.leb nrd now = true
      rw [hnrd] at hdue
      exact hdue
  · show some (advanceReset now (u.nextQuotaResetDate.getD now)) = _
    rw [hk1]

/-- C5 witness: a user one-and-a-bit cycles overdue (stored reset May 10,
now June 15) is reset; the theorem yields the first strictly future
iterate. -/
theorem rollover_due_resets_witness :
    ∃ u1, (UsersService.checkAndResetQuotaIfNeeded ⟨2025, 5, 15, 12, 0, 0, 0⟩
          { users := [{ id := "u1", username := "alice", isAdmin := false,
                        monthlyUsage := 600,
                        nextQuotaResetDate := some ⟨2025, 4, 10, 0, 0, 0, 0⟩,
                        maxStorageCapacity := 1000 }], files := [], usage := [] }
          "u1" (some ⟨2025, 4, 10, 0, 0, 0, 0⟩)).users.find?
        (fun x => decide (x.id = "u1")) = some u1
      ∧ u1.monthlyUsage = 0
      ∧ ∃ k, 1 ≤ k
          ∧ u1.nextQuotaResetDate
              = some (addMonths k ((some (⟨2025, 4, 10, 0, 0, 0, 0⟩ : DateTime)).getD
                  ⟨2025, 5, 15, 12, 0, 0, 0⟩))
          ∧ (∀ j, j < k →
              DateTime.leb (addMonths j ((some (⟨2025, 4, 10, 0, 0, 0, 0⟩ : DateTime)).getD
                  ⟨2025, 5, 15, 12, 0, 0, 0⟩)) ⟨2025, 5, 15, 12, 0, 0, 0⟩ = true)
          ∧ DateTime.leb (addMonths k ((some (⟨2025, 4, 10, 0, 0, 0, 0⟩ : DateTime)).getD
              ⟨2025, 5, 15, 12, 0, 0, 0⟩)) ⟨2025, 5, 15, 12, 0, 0, 0⟩ = false :=
  rollover_due_resets ⟨2025, 5, 15, 12, 0, 0, 0⟩
    { users := [{ id := "u1", username := "alice", isAdmin := false, monthlyUsage := 600,
                  nextQuotaResetDate := some ⟨2025, 4, 10, 0, 0, 0, 0⟩,
                  maxStorageCapacity := 1000 }], files := [], usage := [] }
    "u1"
    { id := "u1", username := "alice", isAdmin := false, monthlyUsage := 600,
      nextQuotaResetDate := some ⟨2025, 4, 10, 0, 0, 0, 0⟩, maxStorageCapacity := 1000 }
    (by decide) (by decide)

theorem uploadCalls_available (ps : List StorageProvider) :
    ∀ q ∈ StorageService.uploadCalls ps, q.available = true := by
  induction ps with
  | nil => intro q hq; cases hq
  | cons p rest ih =>
    intro q hq
    unfold StorageService.uploadCalls at hq
    by_cases ha : p.available
    · rw [if_pos ha] at hq
      by_cases ho : p.uploadOk
      · rw [if_pos ho] at hq
        cases hq with
        | head => exact ha
        | tail _ h => cases h
      · rw [if_neg ho] at hq
        cases hq with
        | head => exact ha
        | tail _ h => exact ih q h
    · rw [if_neg ha] at hq
      exact ih q hq

theorem uploadCalls_stored_le_one (ps : List StorageProvider) :
    ((StorageService.uploadCalls ps).filter (fun q => q.uploadOk)).length ≤ 1 := by
  induction ps with
  | nil => simp [StorageService.uploadCalls]
  | cons p rest ih =>
    unfold StorageService.uploadCalls
    by_cases ha : p.available
    · rw [if_pos ha]
      by_cases ho : p.uploadOk
      · rw [if_pos ho]
        simp [List.filter, ho]
      · rw [if_neg ho]
        simpa [List.filter, ho] using ih
    · rw [if_neg ha]
      exact ih

/-- C1: the orchestrator upload succeeds exactly through the first
provider in the configured order that is available and whose upload
succeeds, tagging the result with that provider's identifier; the
adapter upload is only ever invoked on providers that reported
available; when no provider is both available and able to upload it
throws `AllProvidersUnavailable` (`ServiceUnavailableException`); and at
most one invoked upload succeeds, so the bytes end up at no more than
one provider. -/
theorem storage_upload_first_available (ps : List StorageProvider)
    (file : List Nat) (key mimetype : String) :
    (∀ p, ps.find? (fun q => q.available && q.uploadOk) = some p →
        StorageService.uploadFile ps file key mimetype
          = .ok { provider := p.id, location := p.locationOf key, key := key,
                  size := file.length })
    ∧ ((∀ p ∈ ps, p.available = false ∨ p.uploadOk = false) →
        StorageService.uploadFile ps file key mimetype
          = .error (.serviceUnavailable "All storage providers are unavailable"))
    ∧ (∀ q ∈ StorageService.uploadCalls ps, q.available = true)
    ∧ ((StorageService.uploadCalls ps).filter (fun q => q.uploadOk)).length ≤ 1 := by
  refine ⟨?_, ?_, uploadCalls_available ps, uploadCalls_stored_le_one ps⟩
  · intro p hp
    induction ps with
    | nil => cases hp
    | cons q rest ih =>
      rw [List.find?_cons] at hp
      unfold StorageService.uploadFile
      by_cases ha : q.available
      · by_cases ho : q.uploadOk
        · simp only [ha, ho, Bool.and_self] at hp
          injection hp with hp2
          subst hp2
          rw [if_pos ha]
          unfold StorageProvider.uploadFile
          rw [if_pos ho]
        · simp only [ha, ho, Bool.and_false] at hp
          rw [if_pos ha]
          unfold StorageProvider.uploadFile
          rw [if_neg (by simp [ho])]
          exact ih hp
      · simp only [ha, Bool.false_and] at hp
        rw [if_neg (by simp [ha])]
        exact ih hp
  · intro hall
    induction ps with
    | nil => rfl
    | cons q rest ih =>
      unfold StorageService.uploadFile
      have hq := hall q (by simp)
      by_cases ha : q.available
      · rw [if_pos ha]
        unfold StorageProvider.uploadFile
        have ho : q.uploadOk = false := by
          cases hq with
          | inl h => rw [h] at ha; cases ha
          | inr h => exact h
        rw [if_neg (by simp [ho])]
        exact ih (fun p hp => hall p (List.mem_cons_of_mem q hp))
      · rw [if_neg ha]
        exact ih (fun p hp => hall p (List.mem_cons_of_mem q hp))

/-- Concrete providers for the C1 witness: the first is unavailable, the
second available and healthy. -/
def c1aws : StorageProvider :=
  { id := "aws", available := false, uploadOk := true,
    download := fun _ => none, deleteOk := fun _ => true,
    locationOf := fun k => "https://aws.example/" ++ k }

def c1gcp : StorageProvider :=
  { id := "gcp", available := true, uploadOk := true,
    download := fun _ => none, deleteOk := fun _ => true,
    locationOf := fun k => "https://gcp.example/" ++ k }

/-- C1 witness: with the first provider unavailable, the upload lands on
the second and the result is tagged with its identifier. -/
theorem storage_upload_first_available_witness :
    StorageService.uploadFile [c1aws, c1gcp] [1, 2, 3] "k.txt" "text/plain"
      = .ok { provider := "gcp", location := c1gcp.locationOf "k.txt", key := "k.txt",
              size := 3 } :=
  (storage_upload_first_available [c1aws, c1gcp] [1, 2, 3] "k.txt" "text/plain").1
    c1gcp rfl

/-- Concrete service state for the C2 counterexample: the recorded
provider (aws) is unavailable while the other configured provider (gcp)
is available and independently holds the object. -/
def c2svc : StorageServiceState :=
  { awsProvider :=
      { id := "aws", available := false, uploadOk := true,
        download := fun _ => none, deleteOk := fun _ => true,
        locationOf := fun k => "https://aws.example/" ++ k },
    gcpProvider :=
      { id := "gcp", available := true, uploadOk := true,
        download := fun _ => some { mimetype := "text/plain", size := 5, fileName := "a.txt" },
        deleteOk := fun _ => true,
        locationOf := fun k => "https://gcp.example/" ++ k } }

/-- C2 counterexample: the other configured provider is available and can
serve the key, yet `downloadFile` recorded-as-aws fails with the
service-unavailable message instead of failing over — refuting the
claimed failover-to-other-providers behaviour and the claim that it
fails only when no configured provider can serve the key. -/
theorem download_failover_counterexample :
    c2svc.gcpProvider.available = true
    ∧ c2svc.gcpProvider.download "uploads/u1/a.txt"
        = some { mimetype := "text/plain", size := 5, fileName := "a.txt" }
    ∧ StorageService.downloadFile c2svc "uploads/u1/a.txt" "aws"
        = .error (.serviceUnavailable emailUnavailableMsg) :=
  ⟨rfl, rfl, rfl⟩

/-- C2 amended: `downloadFile` consults only the adapter recorded at
upload time — it returns that adapter's download result when the adapter
is configured and available; in every other case (adapter unknown,
unavailable, or its download throws) it fails with the
`ServiceUnavailableException` promising e-mail delivery, never
consulting the other provider (the result is independent of the
non-recorded provider). -/
theorem download_only_recorded_provider (s : StorageServiceState) (key pid : String) :
    (∀ sel r, s.getProviderByName pid = some sel → sel.available = true →
        sel.download key = some r →
        StorageService.downloadFile s key pid = .ok r)
    ∧ (∀ sel, s.getProviderByName pid = some sel →
        (sel.available = false ∨ sel.download key = none) →
        StorageService.downloadFile s key pid
          = .error (.serviceUnavailable emailUnavailableMsg))
    ∧ (s.getProviderByName pid = none →
        StorageService.downloadFile s key pid
          = .error (.serviceUnavailable emailUnavailableMsg))
    ∧ (∀ aws gcp gcp2, StorageService.downloadFile ⟨aws, gcp⟩ key "aws"
        = StorageService.downloadFile ⟨aws, gcp2⟩ key "aws")
    ∧ (∀ aws aws2 gcp, StorageService.downloadFile ⟨aws, gcp⟩ key "gcp"
        = StorageService.downloadFile ⟨aws2, gcp⟩ key "gcp") := by
  have hdispatch : ∀ sel, s.getProviderByName pid = some sel →
      StorageService.downloadFile s key pid
        = if sel.available then
            match sel.download key with
            | some r => .ok r
            | none => .error (.serviceUnavailable emailUnavailableMsg)
          else .error (.serviceUnavailable emailUnavailableMsg) := by
    intro sel h
    unfold StorageService.downloadFile
    rw [h]
  refine ⟨?_, ?_, ?_, ?_, ?_⟩
  · intro sel r h ha hdl
    rw [hdispatch sel h, if_pos (by simp [ha]), hdl]
  · intro sel h hcase
    rw [hdispatch sel h]
    rcases hcase with hna | hdl
    · rw [if_neg (by simp [hna])]
    · by_cases ha : sel.available
      · rw [if_pos (by simp [ha]), hdl]
      · rw [if_neg (by simp [ha])]
  · intro h
    unfold StorageService.downloadFile
    rw [h]
  · intro aws gcp gcp2
    rfl
  · intro aws aws2 gcp
    rfl

/-- C2 amended witness: with the counterexample state, the recorded but
unavailable provider makes the download fail with the e-mail message. -/
theorem download_only_recorded_provider_witness :
    StorageService.downloadFile c2svc "uploads/u1/a.txt" "aws"
      = .error (.serviceUnavailable emailUnavailableMsg) :=
  (download_only_recorded_provider c2svc "uploads/u1/a.txt" "aws").2.1
    c2svc.awsProvider rfl (Or.inl rfl)

/-- C10: the daily statistics endpoint is admin-gated — an existing
non-admin caller is rejected with `ForbiddenException` and receives no
rows, while an admin caller receives the daily snapshot. -/
theorem stats_admin_gated (today : Day) (db : DB) (userId : String) (u : User)
    (hu : db.users.find? (fun x => decide (x.id = userId)) = some u) :
    (u.isAdmin = false →
        StatsService.getDailyUsageStats today db userId
          = .error (.forbidden "Admin access required"))
    ∧ (u.isAdmin = true →
        StatsService.getDailyUsageStats today db userId
          = .ok (UsersService.getDailyUsageStats today db)) := by
  unfold StatsService.getDailyUsageStats UsersService.isAdmin
  rw [hu]
  dsimp only
  constructor
  · intro h
    rw [h]
    rfl
  · intro h
    rw [h]
    rfl

/-- C10 witness: a concrete non-admin caller is rejected. -/
theorem stats_admin_gated_witness :
    StatsService.getDailyUsageStats ⟨2025, 5, 15⟩
        { users := [{ id := "u1", username := "alice", isAdmin := false,
                      monthlyUsage := 0, nextQuotaResetDate := none,
                      maxStorageCapacity := 1000 }], files := [], usage := [] }
        "u1"
      = .error (.forbidden "Admin access required") :=
  (stats_admin_gated ⟨2025, 5, 15⟩
      { users := [{ id := "u1", username := "alice", isAdmin := false,
                    monthlyUsage := 0, nextQuotaResetDate := none,
                    maxStorageCapacity := 1000 }], files := [], usage := [] }
      "u1"
      { id := "u1", username := "alice", isAdmin := false, monthlyUsage := 0,
        nextQuotaResetDate := none, maxStorageCapacity := 1000 }
      (by decide)).1 rfl

/-- C9: ownership isolation — metadata read, download, and delete by a
caller who does not own the file (or when no such record exists) all
fail with the very same `NotFoundException "File not found"`, leaving
the database untouched on delete; no distinct Forbidden signal exists. -/
theorem ownership_isolation (apiUrl : String) (svc : StorageServiceState)
    (now : DateTime) (db : DB) (fileId userId : String)
    (h : db.files.find? (fun f => decide (f.id = fileId)) = none
       ∨ ∃ f, db.files.find? (fun f2 => decide (f2.id = fileId)) = some f
           ∧ f.userId ≠ userId) :
    FilesService.getFile apiUrl db fileId userId = .error (.notFound "File not found")
    ∧ FilesService.getFileForDownload svc db fileId userId
        = .error (.notFound "File not found")
    ∧ FilesService.deleteFile svc now db fileId userId
        = (.error (.notFound "File not found"), db) := by
  rcases h with h | ⟨f, hf, hown⟩
  · refine ⟨?_, ?_, ?_⟩
    · unfold FilesService.getFile
      rw [h]
    · unfold FilesService.getFileForDownload
      rw [h]
    · unfold FilesService.deleteFile
      rw [h]
  · refine ⟨?_, ?_, ?_⟩
    · unfold FilesService.getFile
      rw [hf]
      dsimp only
      rw [if_pos hown]
    · unfold FilesService.getFileForDownload
      rw [hf]
      dsimp only
      rw [if_pos hown]
    · unfold FilesService.deleteFile
      rw [hf]
      dsimp only
      rw [if_pos hown]

/-- Concrete record owned by another user, for the C9 witness. -/
def c9file : FileRecord :=
  { id := "f1", name := "n.txt", originalName := "n.txt", size := 5,
    mimeType := "text/plain", cloudProvider := "aws",
    cloudPath := "uploads/owner/n.txt", userId := "owner",
    uploadedAt := ⟨2025, 0, 1, 0, 0, 0, 0⟩ }

def c9db : DB :=
  { users := [], files := [c9file], usage := [] }

/-- C9 witness: a concrete non-owner metadata read yields the same
not-found error a non-existent record would. -/
theorem ownership_isolation_witness :
    FilesService.getFile "http://api" c9db "f1" "mallory"
      = .error (.notFound "File not found") :=
  (ownership_isolation "http://api" c2svc ⟨2025, 5, 15, 12, 0, 0, 0⟩
      c9db "f1" "mallory"
      (Or.inr ⟨c9file, by decide, by decide⟩)).1

theorem checkQuota_ok_inv (now : DateTime) (db db1 : DB) (userId : String)
    (fs : Int) (b : Bool)
    (hq : UsersService.checkUserStorageQuota now db userId fs = .ok (db1, b)) :
    ∃ u, db.users.find? (fun x => decide (x.id = userId)) = some u
      ∧ db1 = UsersService.checkAndResetQuotaIfNeeded now db userId
          u.nextQuotaResetDate := by
  unfold UsersService.checkUserStorageQuota at hq
  cases hfind : db.users.find? (fun x => decide (x.id = userId)) with
  | none =>
    rw [hfind] at hq
    cases hq
  | some u =>
    rw [hfind] at hq
    dsimp only at hq
    refine ⟨u, rfl, ?_⟩
    cases hfresh : (UsersService.checkAndResetQuotaIfNeeded now db userId
        u.nextQuotaResetDate).users.find? (fun x => decide (x.id = userId)) with
    | none =>
      rw [hfresh] at hq
      cases hq
    | some fresh =>
      rw [hfresh] at hq
      dsimp only at hq
      injection hq with h2
      exact (congrArg Prod.fst h2).symm

/-- C3: when the capacity check says no, the upload is rejected with the
quota-exceeded `BadRequestException` and has no side effect beyond the
mandated rollover: the file table and the daily usage ledger are
untouched, the whole database is untouched when no rollover was due (in
particular the accumulated usage is unchanged), and the storage
providers are never consulted (the outcome is the same for every
provider configuration). -/
theorem upload_quota_rejected (svc : StorageServiceState) (now : DateTime)
    (newFileId uniqueFilename : String) (db db1 : DB) (fileBytes : List Nat)
    (originalName mimetype userId : String)
    (hq : UsersService.checkUserStorageQuota now db userId (fileBytes.length : Int)
        = .ok (db1, false)) :
    FilesService.uploadFile svc now newFileId uniqueFilename db fileBytes
        originalName mimetype userId
      = (.error (.badRequest "Storage quota exceeded (5GB limit)"), db1)
    ∧ db1.files = db.files
    ∧ db1.usage = db.usage
    ∧ (∀ u, db.users.find? (fun x => decide (x.id = userId)) = some u →
        quotaDue now u.nextQuotaResetDate = false → db1 = db)
    ∧ (∀ svc2, FilesService.uploadFile svc2 now newFileId uniqueFilename db fileBytes
          originalName mimetype userId
        = FilesService.uploadFile svc now newFileId uniqueFilename db fileBytes
            originalName mimetype userId) := by
  have hall : ∀ svc2 : StorageServiceState,
      FilesService.uploadFile svc2 now newFileId uniqueFilename db fileBytes
          originalName mimetype userId
        = (.error (.badRequest "Storage quota exceeded (5GB limit)"), db1) := by
    intro svc2
    unfold FilesService.uploadFile
    rw [hq]
    rfl
  obtain ⟨u, hu, hdb1⟩ := checkQuota_ok_inv now db db1 userId (fileBytes.length : Int)
    false hq
  refine ⟨hall svc, ?_, ?_, ?_, fun svc2 => (hall svc2).trans (hall svc).symm⟩
  · rw [hdb1]
    exact checkAndReset_files now db userId u.nextQuotaResetDate
  · rw [hdb1]
    exact checkAndReset_usage now db userId u.nextQuotaResetDate
  · intro u2 hu2 hdue
    rw [hu] at hu2
    injection hu2 with h3
    subst h3
    rw [hdb1]
    unfold UsersService.checkAndResetQuotaIfNeeded
    rw [if_neg (by simp [hdue])]

/-- Concrete state for the C3 witness: capacity 1000, usage 600, reset
instant in the future. -/
def c3user : User :=
  { id := "u1", username := "alice", isAdmin := false, monthlyUsage := 600,
    nextQuotaResetDate := some ⟨2025, 6, 1, 0, 0, 0, 0⟩, maxStorageCapacity := 1000 }

def c3db : DB :=
  { users := [c3user], files := [], usage := [] }

def c3now : DateTime :=
  ⟨2025, 5, 15, 12, 0, 0, 0⟩

set_option maxRecDepth 4000 in
/-- C3 witness: uploading 500 bytes with capacity 1000 and usage 600 is
rejected with `QuotaExceeded` and the database — usage still 600 — is
returned unchanged. -/
theorem upload_quota_rejected_witness :
    FilesService.uploadFile c2svc c3now "fid" "x.bin" c3db (List.replicate 500 0)
        "x.bin" "application/octet-stream" "u1"
      = (.error (.badRequest "Storage quota exceeded (5GB limit)"), c3db) :=
  (upload_quota_rejected c2svc c3now "fid" "x.bin" c3db c3db (List.replicate 500 0)
      "x.bin" "application/octet-stream" "u1" rfl).1

theorem updateUsage_spec (now : DateTime) (db : DB) (userId : String) (delta : Int)
    (u : User)
    (hu : db.users.find? (fun x => decide (x.id = userId)) = some u)
    (hdue : quotaDue now u.nextQuotaResetDate = false) :
    ∃ db2, UsersService.updateUserStorageUsage now db userId delta = .ok db2
      ∧ db2.files = db.files
      ∧ db2.users = db.users.map (fun x =>
          if x.id = userId then { x with monthlyUsage := x.monthlyUsage + delta } else x) := by
  unfold UsersService.updateUserStorageUsage
  rw [hu]
  have hcs : UsersService.checkAndResetQuotaIfNeeded now db userId u.nextQuotaResetDate
      = db := by
    unfold UsersService.checkAndResetQuotaIfNeeded
    rw [if_neg (by simp [hdue])]
  dsimp only
  rw [hcs]
  split
  · exact ⟨_, rfl, rfl, rfl⟩
  · exact ⟨_, rfl, rfl, rfl⟩

/-- C4 amended: transport failures of the adapter-level delete are
swallowed (both adapters catch and return `false`), and the coordinator
ignores the returned boolean: whenever the recorded provider id resolves
to a configured adapter, `deleteFile` removes the `FileRecord` and
decrements the usage by the file size even when the adapter delete did
not succeed, and reports success; only an unknown recorded provider id
(where `StorageService.deleteFile` throws) aborts the operation with the
record and usage left unchanged. -/
theorem delete_ignores_storage_failure (svc : StorageServiceState) (now : DateTime)
    (db : DB) (fileId userId : String) (f : FileRecord)
    (hf : db.files.find? (fun g => decide (g.id = fileId)) = some f)
    (hown : f.userId = userId) :
    (svc.getProviderByName f.cloudProvider = none →
        FilesService.deleteFile svc now db fileId userId
          = (.error (.internalError ("Provider " ++ f.cloudProvider ++ " not found")), db))
    ∧ (∀ p u, svc.getProviderByName f.cloudProvider = some p →
        db.users.find? (fun x => decide (x.id = userId)) = some u →
        quotaDue now u.nextQuotaResetDate = false →
        ∃ db2, FilesService.deleteFile svc now db fileId userId = (.ok true, db2)
          ∧ db2.files = db.files.filter (fun g => !decide (g.id = fileId))
          ∧ ∃ u2, db2.users.find? (fun x => decide (x.id = userId)) = some u2
              ∧ u2.monthlyUsage = u.monthlyUsage - f.size) := by
  constructor
  · intro hnone
    unfold FilesService.deleteFile
    rw [hf]
    dsimp only
    rw [if_neg (by simp [hown])]
    unfold StorageService.deleteFile
    rw [hnone]
  · intro p u hp hu hdue
    unfold FilesService.deleteFile
    rw [hf]
    dsimp only
    rw [if_neg (by simp [hown])]
    unfold StorageService.deleteFile
    rw [hp]
    dsimp only
    obtain ⟨db2, hok, hfiles, husers⟩ := updateUsage_spec now
      { users := db.users, files := db.files.filter (fun g => !decide (g.id = fileId)),
        usage := db.usage } userId (-f.size) u hu hdue
    rw [hok]
    refine ⟨db2, rfl, hfiles, ?_⟩
    refine ⟨{ u with monthlyUsage := u.monthlyUsage + -f.size }, ?_, ?_⟩
    · rw [husers]
      show (db.users.map (fun x => if x.id = userId then
          { x with monthlyUsage := x.monthlyUsage + -f.size } else x)).find?
        (fun x => decide (x.id = userId)) = _
      rw [find?_map_update db.users userId (fun x =>
          { x with monthlyUsage := x.monthlyUsage + -f.size }) (fun x => rfl), hu]
      rfl
    · show u.monthlyUsage + -f.size = u.monthlyUsage - f.size
      omega

/-- Concrete state for C4: the recorded provider is configured but its
adapter-level delete fails at transport level and returns `false`. -/
def c4aws : StorageProvider :=
  { id := "aws", available := true, uploadOk := true,
    download := fun _ => none, deleteOk := fun _ => false,
    locationOf := fun k => "https://aws.example/" ++ k }

def c4svc : StorageServiceState :=
  { awsProvider := c4aws, gcpProvider := c1gcp }

def c4user : User :=
  { id := "u2", username := "bob", isAdmin := false, monthlyUsage := 600,
    nextQuotaResetDate := some ⟨2025, 6, 1, 0, 0, 0, 0⟩,
    maxStorageCapacity := 5000000 }

def c4file : FileRecord :=
  { id := "f1", name := "x.bin", originalName := "x.bin", size := 600,
    mimeType := "application/octet-stream", cloudProvider := "aws",
    cloudPath := "uploads/u2/x.bin", userId := "u2",
    uploadedAt := ⟨2025, 0, 1, 0, 0, 0, 0⟩ }

def c4db : DB :=
  { users := [c4user], files := [c4file], usage := [] }

def c4now : DateTime :=
  ⟨2025, 5, 15, 12, 0, 0, 0⟩

/-- C4 counterexample: the adapter delete does not succeed (returns
`false`), yet the coordinator reports success, removes the `FileRecord`
and decrements the usage to 0 — refuting the claim that a failed storage
delete leaves record and quota unchanged and fails the operation. -/
theorem delete_failure_counterexample :
    c4svc.awsProvider.deleteOk "uploads/u2/x.bin" = false
    ∧ FilesService.deleteFile c4svc c4now c4db "f1" "u2"
        = (.ok true,
            { users := [{ c4user with monthlyUsage := 0 }], files := [],
              usage := [{ userId := "u2", date := ⟨2025, 5, 15⟩, usageBytes := -600 }] }) :=
  ⟨rfl, rfl⟩

/-- C4 amended witness: with the failing-delete adapter, the record is
gone and the usage decremented by the file size. -/
theorem delete_ignores_storage_failure_witness :
    ∃ db2, FilesService.deleteFile c4svc c4now c4db "f1" "u2" = (.ok true, db2)
      ∧ db2.files = c4db.files.filter (fun g => !decide (g.id = "f1"))
      ∧ ∃ u2, db2.users.find? (fun x => decide (x.id = "u2")) = some u2
          ∧ u2.monthlyUsage = c4user.monthlyUsage - c4file.size :=
  (delete_ignores_storage_failure c4svc c4now c4db "f1" "u2" c4file (by decide) rfl).2
    c4aws c4user rfl (by decide) rfl

/-- Identity of a daily-usage row: one row per (user, calendar day). -/
def usageKey (e : UsageEntry) : String × Day :=
  (e.userId, e.date)

/-- The at-most-one-row-per-(user, day) ledger invariant. -/
def UniqueDaily (l : List UsageEntry) : Prop :=
  l.Pairwise (fun a b => ¬(a.userId = b.userId ∧ a.date = b.date))

theorem bumpFirstUsage_keys (p : UsageEntry → Bool) (delta : Int) :
    ∀ l : List UsageEntry, (bumpFirstUsage l p delta).map usageKey = l.map usageKey := by
  intro l
  induction l with
  | nil => rfl
  | cons e rest ih =>
    unfold bumpFirstUsage
    by_cases hp : p e
    · rw [if_pos hp]
      rfl
    · rw [if_neg hp]
      simp only [List.map_cons]
      rw [ih]

theorem uniqueDaily_iff_map (l : List UsageEntry) :
    UniqueDaily l ↔ (l.map usageKey).Pairwise (fun a b => a ≠ b) := by
  unfold UniqueDaily
  rw [List.pairwise_map]
  constructor
  · intro h
    exact h.imp (fun hab hk =>
      hab ⟨congrArg Prod.fst hk, congrArg Prod.snd hk⟩)
  · intro h
    exact h.imp (fun hab hcon => hab (by
      unfold usageKey
      rw [hcon.1, hcon.2]))

theorem updateUsage_unique (now : DateTime) (db : DB) (userId : String)
    (delta : Int) (db2 : DB)
    (h : UsersService.updateUserStorageUsage now db userId delta = .ok db2)
    (hU : UniqueDaily db.usage) : UniqueDaily db2.usage := by
  unfold UsersService.updateUserStorageUsage at h
  cases hfind : db.users.find? (fun x => decide (x.id = userId)) with
  | none =>
    rw [hfind] at h
    cases h
  | some u =>
    rw [hfind] at h
    dsimp only at h
    have husage : ((UsersService.checkAndResetQuotaIfNeeded now db userId
        u.nextQuotaResetDate).updateUser userId (fun x =>
          { x with monthlyUsage := x.monthlyUsage + delta })).usage = db.usage := by
      show (UsersService.checkAndResetQuotaIfNeeded now db userId
        u.nextQuotaResetDate).usage = db.usage
      exact checkAndReset_usage now db userId u.nextQuotaResetDate
    rw [husage] at h
    cases hfind2 : db.usage.find?
        (fun e => decide (e.userId = userId) && decide (e.date = now.toDay)) with
    | some e =>
      rw [hfind2] at h
      dsimp only at h
      injection h with h2
      have hu2 : db2.usage = bumpFirstUsage db.usage
          (fun e => decide (e.userId = userId) && decide (e.date = now.toDay)) delta := by
        rw [← h2]
      rw [uniqueDaily_iff_map, hu2, bumpFirstUsage_keys]
      rw [uniqueDaily_iff_map] at hU
      exact hU
    | none =>
      rw [hfind2] at h
      dsimp only at h
      injection h with h2
      have hu2 : db2.usage = db.usage
          ++ [{ userId := userId, date := now.toDay, usageBytes := delta }] := by
        rw [← h2]
      rw [List.find?_eq_none] at hfind2
      rw [hu2]
      unfold UniqueDaily
      rw [List.pairwise_append]
      refine ⟨hU, List.pairwise_singleton _ _, ?_⟩
      intro a ha b hb
      have hb2 : b = { userId := userId, date := now.toDay, usageBytes := delta } := by
        simpa using hb
      subst hb2
      intro hcon
      have hx := hfind2 a ha
      simp only [Bool.and_eq_true, decide_eq_true_eq, not_and] at hx
      exact hx hcon.1 hcon.2

/-- C8 amended: after any upload or delete operation the daily usage
ledger still has at most one row per (user, calendar day); the
nonnegativity half of the claimed invariant fails (see the
counterexample: a delete on a later day records a negative row). -/
theorem usage_ledger_unique (svc : StorageServiceState) (now : DateTime)
    (newFileId uniqueFilename : String) (db : DB) (fileBytes : List Nat)
    (originalName mimetype userId fileId : String)
    (hU : UniqueDaily db.usage) :
    UniqueDaily ((FilesService.uploadFile svc now newFileId uniqueFilename db fileBytes
        originalName mimetype userId).2).usage
    ∧ UniqueDaily ((FilesService.deleteFile svc now db fileId userId).2).usage := by
  constructor
  · unfold FilesService.uploadFile
    split
    · exact hU
    · rename_i db1 hasQuota heq
      obtain ⟨u, hu, hdb1⟩ := checkQuota_ok_inv now db db1 userId _ _ heq
      have hU1 : UniqueDaily db1.usage := by
        rw [hdb1, checkAndReset_usage]
        exact hU
      split
      · dsimp only
        split
        · exact hU1
        · rename_i up hup
          split
          · exact hU1
          · rename_i db3 hupd
            exact updateUsage_unique now _ userId _ db3 hupd hU1
      · exact hU1
  · unfold FilesService.deleteFile
    split
    · exact hU
    · rename_i file hfile
      split
      · exact hU
      · split
        · exact hU
        · dsimp only
          split
          · exact hU
          · rename_i db2 hupd
            exact updateUsage_unique now _ userId _ db2 hupd hU

/-- Concrete two-day scenario for the C8 counterexample. -/
def c8user : User :=
  { id := "u8", username := "carol", isAdmin := false, monthlyUsage := 0,
    nextQuotaResetDate := some ⟨2025, 11, 1, 0, 0, 0, 0⟩,
    maxStorageCapacity := 100000 }

def c8db : DB :=
  { users := [c8user], files := [], usage := [] }

def c8now1 : DateTime :=
  ⟨2025, 5, 10, 9, 0, 0, 0⟩

def c8now2 : DateTime :=
  ⟨2025, 5, 11, 9, 0, 0, 0⟩

set_option maxRecDepth 8000 in
/-- C8 counterexample: uploading 600 bytes on June 10 and deleting the
file on June 11 leaves a daily usage row of -600 bytes for June 11 —
refuting the never-negative half of the claimed ledger invariant. -/
theorem usage_negative_counterexample :
    ((FilesService.deleteFile c4svc c8now2
        (FilesService.uploadFile c4svc c8now1 "f8" "y.bin" c8db
          (List.replicate 600 0) "y.bin" "application/octet-stream" "u8").2
        "f8" "u8").2).usage
      = [{ userId := "u8", date := ⟨2025, 5, 10⟩, usageBytes := 600 },
         { userId := "u8", date := ⟨2025, 5, 11⟩, usageBytes := -600 }]
    ∧ (-600 : Int) < 0 := by
  constructor
  · decide
  · decide

/-- C8 amended witness: a concrete upload into an empty ledger keeps the
one-row-per-(user, day) invariant. -/
theorem usage_ledger_unique_witness :
    UniqueDaily ((FilesService.uploadFile c4svc c8now1 "f8" "y.bin" c8db
        (List.replicate 3 0) "y.bin" "application/octet-stream" "u8").2).usage :=
  (usage_ledger_unique c4svc c8now1 "f8" "y.bin" c8db (List.replicate 3 0)
      "y.bin" "application/octet-stream" "u8" "f8" List.Pairwise.nil).1
